import Mathlib

/-!
Package `internal/common`: jobs, worker statuses and the system-status aggregator.

A shallow embedding of `internal/common/job.go` and `internal/common/worker.go`.

* Go `string` values are Lean `String`s; `JobStatus` and `JobType` are Go
  string types and stay strings here.
* `time.Now()` and `uuid.New().String()` read the outside world.  Every
  function that calls them takes an `Env` (the successive clock readings and
  the successive generated identifiers) and returns the advanced `Env`.
* Go `int` counters are integers; the code only stores them.
* `float64` is carried as its IEEE-754 binary64 fields; the code only
  stores it and the JSON encoder only classifies it (zero, finite, NaN/Inf).
* Slices are lists with value semantics.
* A `time.Time` is its wall-clock reading, its monotonic-clock reading and
  its location, the three things Go's `==` compares.
* A JSON document is the object it denotes, as its ordered members;
  `json.Marshal` and `json.Unmarshal` are followed on the struct tags.
-/

namespace Common

/-! ## Values from the standard library -/

/-- The `*time.Location` of a `time.Time`, with the offset from UTC (minutes
east) that the location has at that time. Go's `==` on `time.Time` compares
the location by address: `utc` is the UTC location, `local` the machine's
`time.Local`, `other` any other location, told apart by its address.
`parsed` is the location that `Time.UnmarshalJSON` gives a text with a
non-zero offset: `time.Local` when the machine's zone has that offset at that
instant, else a fixed zone that the call allocates. Which of the two it is,
and so whether `==` equates it with another location, is not decided here.
Zones whose offset has a seconds part are not represented. -/
inductive Location where
  | utc
  | local (offset : Int)
  | other (addr : Nat) (offset : Int)
  | parsed (offset : Int)
deriving DecidableEq, Repr

/-- The offset from UTC of a location, in minutes east. -/
def Location.offset : Location → Int
  | .utc => 0
  | .local offset => offset
  | .other _ offset => offset
  | .parsed offset => offset

/-- A `time.Time` value: the wall-clock reading in its own location (calendar
year and the nanoseconds elapsed inside that year), the monotonic-clock
reading that `time.Now()` attaches, and the location. Go's `==` on
`time.Time` compares the three; equality here is that comparison as long as
no `parsed` location is involved. -/
structure Time where
  year : Int
  nanos : Nat
  mono : Option Nat
  loc : Location
deriving DecidableEq, Repr

/-- A `float64` value as its sign bit, biased exponent and fraction. -/
structure Float64 where
  sign : Bool
  exponent : Fin 2048
  fraction : Fin (2 ^ 52)
deriving DecidableEq, Repr

/-- The zero value of `float64` (positive zero). -/
def Float64.zero : Float64 := ⟨false, 0, 0⟩

/-- Go's `f == 0`: true of both signed zeros. -/
def Float64.isZero (f : Float64) : Bool :=
  f.exponent.val == 0 && f.fraction.val == 0

/-- NaN or an infinity: the all-ones exponent. -/
def Float64.isNaNOrInf (f : Float64) : Bool :=
  f.exponent.val == 2047

/-- The zero value of `time.Time`: its location is UTC. -/
def Time.zero : Time := ⟨1, 0, none, .utc⟩

/-- The outside world read by `time.Now()` and `uuid.New()`: the sequence of
successive clock readings with the number already taken, and the sequence of
successive generated identifiers with the number already drawn. -/
structure Env where
  clock : Nat → Time
  ticks : Nat
  uuids : Nat → String
  drawn : Nat

/-- One call of `time.Now()`: the next reading, and the advanced world. -/
def Env.now (e : Env) : Time × Env :=
  (e.clock e.ticks, { e with ticks := e.ticks + 1 })

/-- One call of `uuid.New().String()`. -/
def Env.newUUID (e : Env) : String × Env :=
  (e.uuids e.drawn, { e with drawn := e.drawn + 1 })

/-! ## job.go: Job -/

abbrev JobStatus := String

def JobStatusPending : JobStatus := "pending"
def JobStatusRunning : JobStatus := "running"
def JobStatusCompleted : JobStatus := "completed"
def JobStatusFailed : JobStatus := "failed"
def JobStatusCanceled : JobStatus := "canceled"
def JobStatusProcessing : JobStatus := "processing"

abbrev JobType := String

def JobTypeNarration : JobType := "narration"
def JobTypeMixing : JobType := "mixing"

/-- The `Job` struct (the field `Type` is `Type_` here). -/
structure Job where
  ID : String
  Type_ : JobType
  Status : JobStatus
  CreatedAt : Time
  UpdatedAt : Time
  InputFilePath : String
  OutputFilePath : String
  TextContent : String
  VoiceID : String
  BackgroundAudioFilePath : String
  Volume : Float64
  Error : String
deriving DecidableEq, Repr

/-- The constructor `NewJob`: the composite literal's operands are evaluated in source order,
so the identifier is drawn first and the clock is read twice, once for
`CreatedAt` and once more for `UpdatedAt`. Fields absent from the literal
take their zero values. -/
def NewJob (jobType : JobType) (inputPath outputPath : String) (e : Env) : Job × Env :=
  let (id, e1) := e.newUUID
  let (created, e2) := e1.now
  let (updated, e3) := e2.now
  ({ ID := id
     Type_ := jobType
     Status := JobStatusPending
     CreatedAt := created
     UpdatedAt := updated
     InputFilePath := inputPath
     OutputFilePath := outputPath
     TextContent := ""
     VoiceID := ""
     BackgroundAudioFilePath := ""
     Volume := Float64.zero
     Error := "" }, e3)

/-! ## job.go: MarshalBinary, that is `json.Marshal` on a `Job` -/

/-- The Go values held by the fields of `Job`. -/
inductive FieldValue where
  | str (s : String)
  | time (t : Time)
  | float (f : Float64)
deriving DecidableEq, Repr

/-- A JSON value as the encoder writes it: a string, the RFC 3339 text of a
wall-clock reading with its zone offset in minutes (`Z` for offset zero; the
monotonic reading and the location are not written), or a number. -/
inductive JSONValue where
  | string (s : String)
  | timestamp (year : Int) (nanos : Nat) (offset : Int)
  | number (f : Float64)
deriving DecidableEq, Repr

/-- One struct field as the encoder sees it: the key of its `json` tag,
whether the tag carries `omitempty`, and the field's value. -/
structure StructField where
  key : String
  omitEmpty : Bool
  value : FieldValue
deriving DecidableEq, Repr

/-- The encoder's emptiness test for `omitempty`: a string of length zero, a
float equal to zero; a struct such as `time.Time` is never empty. -/
def isEmptyValue : FieldValue → Bool
  | .str s => s.length == 0
  | .float f => f.isZero
  | .time _ => false

/-- Encoding of one value. `Time.MarshalJSON` refuses a year outside
`[0,9999]` and a zone offset of 24 hours or more; the float encoder refuses
NaN and the infinities. -/
def encodeValue : FieldValue → Except String JSONValue
  | .str s => .ok (.string s)
  | .time t =>
    if 0 ≤ t.year ∧ t.year ≤ 9999 then
      if t.loc.offset.natAbs < 1440 then .ok (.timestamp t.year t.nanos t.loc.offset)
      else .error "Time.MarshalJSON: timezone hour outside of range [0,23]"
    else .error "Time.MarshalJSON: year outside of range [0,9999]"
  | .float f =>
    if f.isNaNOrInf then .error "json: unsupported value"
    else .ok (.number f)

/-- The struct encoder: fields in declaration order, an `omitempty` field
with an empty value skipped, the first encoding error aborting the whole
record. The result is the JSON object as its ordered members. -/
def encodeStruct : List StructField → Except String (List (String × JSONValue))
  | [] => .ok []
  | f :: fs =>
    if f.omitEmpty && isEmptyValue f.value then encodeStruct fs
    else
      match encodeValue f.value with
      | .error err => .error err
      | .ok v =>
        match encodeStruct fs with
        | .error err => .error err
        | .ok rest => .ok ((f.key, v) :: rest)

/-- The fields of `Job` with their `json` tags, in declaration order. -/
def Job.fields (j : Job) : List StructField :=
  [ ⟨"id", false, .str j.ID⟩,
    ⟨"type", false, .str j.Type_⟩,
    ⟨"status", false, .str j.Status⟩,
    ⟨"created_at", false, .time j.CreatedAt⟩,
    ⟨"updated_at", false, .time j.UpdatedAt⟩,
    ⟨"input_file_path", false, .str j.InputFilePath⟩,
    ⟨"output_file_path", false, .str j.OutputFilePath⟩,
    ⟨"text_content", true, .str j.TextContent⟩,
    ⟨"voice_id", true, .str j.VoiceID⟩,
    ⟨"background_audio_file_path", true, .str j.BackgroundAudioFilePath⟩,
    ⟨"volume", true, .float j.Volume⟩,
    ⟨"error", true, .str j.Error⟩ ]

/-- The method `(*Job).MarshalBinary`, which is `json.Marshal(j)`. -/
def Job.MarshalBinary (j : Job) : Except String (List (String × JSONValue)) :=
  encodeStruct j.fields

/-- The keys of a record, in order. -/
def recordKeys (r : List (String × JSONValue)) : List String :=
  r.map Prod.fst

/-- Case folding of one character as the decoder's field-name matching sees
it against ASCII names: upper-case ASCII letters fold to lower case, and so
do the two other characters whose simple fold is an ASCII letter, the long s
(U+017F) and the Kelvin sign (U+212A). -/
def foldChar (c : Char) : Char :=
  if c = Char.ofNat 0x17F then 's'
  else if c = Char.ofNat 0x212A then 'k'
  else c.toLower

/-- Case folding of a member name. -/
def foldName (s : String) : String :=
  ⟨s.data.map foldChar⟩

/-- The field a member name selects: the one whose tag equals the name, or
equals it up to case folding (the tags are lower-case ASCII and no two fold
together, so one comparison of folded names finds it). -/
def lookupField {φ : Type} (tags : List (String × φ)) (key : String) : Option φ :=
  (tags.find? (fun p => p.1 = foldName key)).map Prod.snd

/-- What storing one member's value into a field does: the value is stored;
or its JSON type does not fit the field, which is recorded as an error while
decoding goes on; or the field's own `UnmarshalJSON` fails, which stops the
decoding with the struct as that call left it. -/
inductive StoreOutcome (α : Type) where
  | stored (a : α)
  | mismatch (err : String)
  | abort (a : α) (err : String)

/-- The object decoder: members in order, a member whose name selects no
field skipped, a later member for the same field overwriting an earlier one.
The error returned is the aborting one if any, else the first recorded
mismatch, else none. The struct is returned as the members left it. -/
def decodeObject {α φ : Type} (tags : List (String × φ))
    (store : α → φ → JSONValue → StoreOutcome α) :
    α → Option String → List (String × JSONValue) → α × Option String
  | a, saved, [] => (a, saved)
  | a, saved, (key, v) :: rest =>
    match lookupField tags key with
    | none => decodeObject tags store a saved rest
    | some f =>
      match store a f v with
      | .stored a1 => decodeObject tags store a1 saved rest
      | .mismatch err =>
        decodeObject tags store a (match saved with | some e0 => some e0 | none => some err) rest
      | .abort a1 err => (a1, some err)

/-- A year divisible by 4, and not by 100 unless by 400, is a leap year. -/
def isLeapYear (y : Int) : Bool :=
  y % 4 == 0 && (y % 100 != 0 || y % 400 == 0)

/-- The lengths of the twelve months of a year, in days. -/
def monthLengths (y : Int) : List Nat :=
  [31, if isLeapYear y then 29 else 28, 31, 30, 31, 30, 31, 31, 30, 31, 30, 31]

/-- Month and day of the month (both from 1) of the day of the year `d`
(from 0), walking the month lengths from month `m`. -/
def monthAndDay : List Nat → Nat → Nat → Nat × Nat
  | [], m, d => (m, d + 1)
  | len :: rest, m, d =>
    if d < len then (m, d + 1) else monthAndDay rest (m + 1) (d - len)

/-- A number in decimal, padded with zeros on the left to a width. -/
def padZeros (width n : Nat) : String :=
  let digits := (Nat.toDigits 10 n)
  ⟨List.replicate (width - digits.length) '0' ++ digits⟩

/-- The fraction of a second as RFC 3339 with nanoseconds writes it: nothing
for zero, else a point and nine digits without the trailing zeros. -/
def fractionText (ns : Nat) : String :=
  if ns = 0 then ""
  else ⟨'.' :: ((padZeros 9 ns).data.reverse.dropWhile (fun c => c = '0')).reverse⟩

/-- The zone designator of RFC 3339: `Z` for offset zero, else the sign and
the hours and minutes of the offset. -/
def zoneText (offset : Int) : String :=
  if offset = 0 then "Z"
  else
    (if offset < 0 then "-" else "+") ++ padZeros 2 (offset.natAbs / 60) ++ ":" ++
      padZeros 2 (offset.natAbs % 60)

/-- The RFC 3339 text of the wall-clock reading `nanos` nanoseconds into
`year`, in a zone with the given offset. -/
def timestampText (year : Int) (nanos : Nat) (offset : Int) : String :=
  let secs := nanos / 1000000000
  let day := secs / 86400
  let sod := secs % 86400
  let md := monthAndDay (monthLengths year) 1 day
  padZeros 4 year.toNat ++ "-" ++ padZeros 2 md.1 ++ "-" ++ padZeros 2 md.2 ++ "T" ++
    padZeros 2 (sod / 3600) ++ ":" ++ padZeros 2 (sod % 3600 / 60) ++ ":" ++
    padZeros 2 (sod % 60) ++ fractionText (nanos % 1000000000) ++ zoneText offset

/-- Decoding into a `string` field: any JSON string is stored as its text; a
number does not fit. -/
def decodeString : JSONValue → Option String
  | .string s => some s
  | .timestamp year nanos offset => some (timestampText year nanos offset)
  | .number _ => none

/-- Decoding into a `float64` field: a number is stored; a string does not
fit. -/
def decodeFloat : JSONValue → Option Float64
  | .number f => some f
  | .string _ => none
  | .timestamp _ _ _ => none

/-- The location `Time.UnmarshalJSON` gives a parsed time: UTC for the
designator `Z`, that is offset zero, and for any other offset `time.Local`
or a new fixed zone, as the machine's zone decides. -/
def parsedLocation (offset : Int) : Location :=
  if offset = 0 then .utc else .parsed offset

/-- Decoding into a `time.Time` field, by `Time.UnmarshalJSON`: a timestamp
text is parsed to its wall-clock reading, with no monotonic reading and with
the location that goes with its offset; any other string, and a number, is
an error. -/
def decodeTime : JSONValue → Except String Time
  | .timestamp year nanos offset => .ok ⟨year, nanos, none, parsedLocation offset⟩
  | .string _ => .error "parsing time: cannot parse as RFC 3339"
  | .number _ => .error "Time.UnmarshalJSON: input is not a JSON string"

/-- Storing into a `string` field through its setter. -/
def storeString {α : Type} (set : String → α) (v : JSONValue) : StoreOutcome α :=
  match decodeString v with
  | some s => .stored (set s)
  | none => .mismatch "json: cannot unmarshal number into Go struct field of type string"

/-- Storing into a `float64` field through its setter. -/
def storeFloat {α : Type} (set : Float64 → α) (v : JSONValue) : StoreOutcome α :=
  match decodeFloat v with
  | some f => .stored (set f)
  | none => .mismatch "json: cannot unmarshal string into Go struct field of type float64"

/-- Storing into a `time.Time` field of the struct `cur` through its setter.
`Time.UnmarshalJSON` assigns the result of the parse whether or not it
failed, so a string that does not parse leaves the zero time in the field;
an input that is not a string is refused before anything is assigned. -/
def storeTime {α : Type} (cur : α) (set : Time → α) (v : JSONValue) : StoreOutcome α :=
  match decodeTime v with
  | .ok t => .stored (set t)
  | .error err =>
    match v with
    | .string _ => .abort (set Time.zero) err
    | _ => .abort cur err

/-- The twelve fields of `Job`. -/
inductive JobField where
  | id | type_ | status | createdAt | updatedAt | inputFilePath | outputFilePath
  | textContent | voiceID | backgroundAudioFilePath | volume | error
deriving DecidableEq, Repr

/-- The `json` tags of `Job`, each with its field. -/
def jobTags : List (String × JobField) :=
  [ ("id", .id), ("type", .type_), ("status", .status), ("created_at", .createdAt),
    ("updated_at", .updatedAt), ("input_file_path", .inputFilePath),
    ("output_file_path", .outputFilePath), ("text_content", .textContent),
    ("voice_id", .voiceID), ("background_audio_file_path", .backgroundAudioFilePath),
    ("volume", .volume), ("error", .error) ]

/-- Storing one member's value into a field of a `Job`. -/
def Job.store (j : Job) : JobField → JSONValue → StoreOutcome Job
  | .id, v => storeString (fun s => { j with ID := s }) v
  | .type_, v => storeString (fun s => { j with Type_ := s }) v
  | .status, v => storeString (fun s => { j with Status := s }) v
  | .createdAt, v => storeTime j (fun t => { j with CreatedAt := t }) v
  | .updatedAt, v => storeTime j (fun t => { j with UpdatedAt := t }) v
  | .inputFilePath, v => storeString (fun s => { j with InputFilePath := s }) v
  | .outputFilePath, v => storeString (fun s => { j with OutputFilePath := s }) v
  | .textContent, v => storeString (fun s => { j with TextContent := s }) v
  | .voiceID, v => storeString (fun s => { j with VoiceID := s }) v
  | .backgroundAudioFilePath, v =>
    storeString (fun s => { j with BackgroundAudioFilePath := s }) v
  | .volume, v => storeFloat (fun f => { j with Volume := f }) v
  | .error, v => storeString (fun s => { j with Error := s }) v

/-- The method `(*Job).UnmarshalBinary`, which is `json.Unmarshal(data, j)`:
the Job as the call leaves it, and the error returned (`none` is `nil`). -/
def Job.UnmarshalBinary (j : Job) (data : List (String × JSONValue)) : Job × Option String :=
  decodeObject jobTags Job.store j none data

/-- The zero value of `Job`. -/
def Job.zero : Job :=
  { ID := "", Type_ := "", Status := "", CreatedAt := Time.zero, UpdatedAt := Time.zero
    InputFilePath := "", OutputFilePath := "", TextContent := "", VoiceID := ""
    BackgroundAudioFilePath := "", Volume := Float64.zero, Error := "" }

/-- The `JobUpdate` struct. -/
structure JobUpdate where
  ID : String
  Status : JobStatus
  Error : String
deriving DecidableEq, Repr

/-- The zero value of `JobUpdate`. -/
def JobUpdate.zero : JobUpdate :=
  { ID := "", Status := "", Error := "" }

def JobEventCreated : String := "job.created"
def JobEventUpdated : String := "job.updated"
def JobEventProgress : String := "job.progress"

/-- The fields of `JobUpdate` with their `json` tags, in declaration order. -/
def JobUpdate.fields (u : JobUpdate) : List StructField :=
  [ ⟨"id", false, .str u.ID⟩,
    ⟨"status", true, .str u.Status⟩,
    ⟨"error", true, .str u.Error⟩ ]

/-- The three fields of `JobUpdate`. -/
inductive JobUpdateField where
  | id | status | error
deriving DecidableEq, Repr

/-- The `json` tags of `JobUpdate`, each with its field. -/
def jobUpdateTags : List (String × JobUpdateField) :=
  [ ("id", .id), ("status", .status), ("error", .error) ]

/-- Storing one member's value into a field of a `JobUpdate`. -/
def JobUpdate.store (u : JobUpdate) : JobUpdateField → JSONValue → StoreOutcome JobUpdate
  | .id, v => storeString (fun s => { u with ID := s }) v
  | .status, v => storeString (fun s => { u with Status := s }) v
  | .error, v => storeString (fun s => { u with Error := s }) v

/-- The `JobEvent` struct. `Payload` is a `json.RawMessage`: `none` is the
nil message, `some r` the JSON object `r`. -/
structure JobEvent where
  Type_ : String
  Payload : Option (List (String × JSONValue))
deriving DecidableEq, Repr

/-- The second operand of a `return` statement of `NewJobEvent`, whose
signature declares the results `(JobEvent, error)`: an error value, an
explicit `nil`, or no second operand at all. -/
inductive ErrorOperand where
  | err (msg : String)
  | nil
  | absent
deriving DecidableEq, Repr

/-- The function `NewJobEvent`, on a `JobUpdate` payload, as the operands of
the `return` statement it reaches. When `json.Marshal` fails the statement is
`return JobEvent{}, fmt.Errorf(...)`. Otherwise the statement is
`return JobEvent{Type: eventType, Payload: data},` and ends at the comma: it
has the event operand and no second operand. -/
def NewJobEvent (eventType : String) (payload : JobUpdate) : JobEvent × ErrorOperand :=
  match encodeStruct payload.fields with
  | .error err =>
    ({ Type_ := "", Payload := none }, .err ("failed to marshal event payload: " ++ err))
  | .ok data => ({ Type_ := eventType, Payload := some data }, .absent)

/-- The method `(*JobEvent).UnmarshalPayload` into a `*JobUpdate`, which is
`json.Unmarshal(je.Payload, v)`: the `JobUpdate` as the call leaves it, and
the error returned. A nil payload is no JSON text at all. -/
def JobEvent.UnmarshalPayload (je : JobEvent) (v : JobUpdate) : JobUpdate × Option String :=
  match je.Payload with
  | none => (v, some "unexpected end of JSON input")
  | some data => decodeObject jobUpdateTags JobUpdate.store v none data

/-! ## job.go and worker.go: the system-status aggregator -/

/-- The `WorkerPoolStatus` struct. -/
structure WorkerPoolStatus where
  TotalWorkers : Int
  IdleWorkers : Int
  ProcessingJobs : Int
  QueuedJobs : Int
  FailedJobsToday : Int
deriving DecidableEq, Repr

/-- The `WorkerStatus` struct. -/
structure WorkerStatus where
  ID : String
  Status : String
  CurrentJob : String
  LastActive : Time
deriving DecidableEq, Repr

/-- The `SystemStatus` struct. -/
structure SystemStatus where
  OverallHealth : String
  WorkerPool : WorkerPoolStatus
  Workers : List WorkerStatus
  LastUpdated : Time
  Messages : List String
deriving DecidableEq, Repr

/-- The constructor `NewWorkerStatus` (worker.go): `CurrentJob` is absent from
the literal and takes its zero value. -/
def NewWorkerStatus (id status : String) (e : Env) : WorkerStatus × Env :=
  let (t, e1) := e.now
  ({ ID := id, Status := status, CurrentJob := "", LastActive := t }, e1)

/-- The constructor `NewSystemStatus`. -/
def NewSystemStatus (e : Env) : SystemStatus × Env :=
  let (t, e1) := e.now
  ({ OverallHealth := "healthy"
     WorkerPool :=
       { TotalWorkers := 0
         IdleWorkers := 0
         ProcessingJobs := 0
         QueuedJobs := 0
         FailedJobsToday := 0 }
     Workers := []
     LastUpdated := t
     Messages := [] }, e1)

namespace SystemStatus

/-- The method `AddMessage`. -/
def AddMessage (ss : SystemStatus) (msg : String) : SystemStatus :=
  { ss with Messages := ss.Messages ++ [msg] }

/-- The method `UpdateWorkerPoolStatus`. -/
def UpdateWorkerPoolStatus (ss : SystemStatus) (total idle processing queued failed : Int) :
    SystemStatus :=
  { ss with
    WorkerPool :=
      { TotalWorkers := total
        IdleWorkers := idle
        ProcessingJobs := processing
        QueuedJobs := queued
        FailedJobsToday := failed } }

/-- The `for ... range ss.Workers` loop of `UpdateWorkerStatus`: at the first
entry whose ID is `workerID` it overwrites the three fields (reading the
clock at that moment) and breaks. `none` is the loop ending with
`found == false`; nothing has been written or read in that case. -/
def updateWorkerLoop (workerID status currentJob : String) :
    List WorkerStatus → Env → Option (List WorkerStatus × Env)
  | [], _ => none
  | worker :: rest, e =>
    if worker.ID = workerID then
      let (t, e1) := e.now
      some ({ worker with Status := status, CurrentJob := currentJob, LastActive := t } :: rest, e1)
    else
      match updateWorkerLoop workerID status currentJob rest e with
      | some (rest1, e1) => some (worker :: rest1, e1)
      | none => none

/-- The method `UpdateWorkerStatus`: the loop, then the append when the loop
ended with `found == false`. -/
def UpdateWorkerStatus (ss : SystemStatus) (workerID status currentJob : String) (e : Env) :
    SystemStatus × Env :=
  match updateWorkerLoop workerID status currentJob ss.Workers e with
  | some (ws, e1) => ({ ss with Workers := ws }, e1)
  | none =>
    let (t, e1) := e.now
    ({ ss with
       Workers := ss.Workers ++
         [{ ID := workerID, Status := status, CurrentJob := currentJob, LastActive := t }] }, e1)

/-- The loop of `RemoveWorkerStatus`: at the first entry whose ID is
`workerID` the list becomes `Workers[:i]` followed by `Workers[i+1:]`, and
the loop breaks. -/
def removeWorkerLoop (workerID : String) : List WorkerStatus → List WorkerStatus
  | [] => []
  | worker :: rest =>
    if worker.ID = workerID then rest
    else worker :: removeWorkerLoop workerID rest

/-- The method `RemoveWorkerStatus`. -/
def RemoveWorkerStatus (ss : SystemStatus) (workerID : String) : SystemStatus :=
  { ss with Workers := removeWorkerLoop workerID ss.Workers }

/-- The method `UpdateOverallHealth`. -/
def UpdateOverallHealth (ss : SystemStatus) (health : String) : SystemStatus :=
  { ss with OverallHealth := health }

/-- The method `RefreshLastUpdated`. -/
def RefreshLastUpdated (ss : SystemStatus) (e : Env) : SystemStatus × Env :=
  let (t, e1) := e.now
  ({ ss with LastUpdated := t }, e1)

end SystemStatus

/-! ## Sequences of mutation-method calls -/

/-- One call of a `SystemStatus` mutation method, with its arguments. -/
inductive Call where
  | addMessage (msg : String)
  | updateWorkerPoolStatus (total idle processing queued failed : Int)
  | updateWorkerStatus (workerID status currentJob : String)
  | removeWorkerStatus (workerID : String)
  | updateOverallHealth (health : String)
  | refreshLastUpdated
deriving DecidableEq, Repr

/-- Performing one call on a status, in a world. -/
def Call.run : Call → SystemStatus × Env → SystemStatus × Env
  | .addMessage msg, (ss, e) => (ss.AddMessage msg, e)
  | .updateWorkerPoolStatus total idle processing queued failed, (ss, e) =>
    (ss.UpdateWorkerPoolStatus total idle processing queued failed, e)
  | .updateWorkerStatus workerID status currentJob, (ss, e) =>
    ss.UpdateWorkerStatus workerID status currentJob e
  | .removeWorkerStatus workerID, (ss, e) => (ss.RemoveWorkerStatus workerID, e)
  | .updateOverallHealth health, (ss, e) => (ss.UpdateOverallHealth health, e)
  | .refreshLastUpdated, (ss, e) => ss.RefreshLastUpdated e

/-- Performing the calls of a list, first to last. -/
def runCalls (calls : List Call) (start : SystemStatus × Env) : SystemStatus × Env :=
  calls.foldl (fun st c => c.run st) start

/-- The status after `NewSystemStatus()` followed by the given calls. -/
def statusAfter (e : Env) (calls : List Call) : SystemStatus :=
  (runCalls calls (NewSystemStatus e)).1

/-- A status is reachable when some world and some finite sequence of
mutation-method calls produce it from `NewSystemStatus()`. -/
def Reachable (ss : SystemStatus) : Prop :=
  ∃ (e : Env) (calls : List Call), statusAfter e calls = ss

/-- The worker IDs of a status, in list order. -/
def workerIDs (ss : SystemStatus) : List String :=
  ss.Workers.map (fun w => w.ID)

/-! ## The two type-specific payload groups of a Job -/

/-- The narration group (`TextContent`, `VoiceID`) holds only zero values. -/
@[reducible] def narrationGroupEmpty (j : Job) : Prop :=
  j.TextContent = "" ∧ j.VoiceID = ""

/-- The mixing group (`BackgroundAudioFilePath`, `Volume`) holds only zero
values. -/
@[reducible] def mixingGroupEmpty (j : Job) : Prop :=
  j.BackgroundAudioFilePath = "" ∧ j.Volume = Float64.zero

/-- A world for examples: reading `n` of the clock is `n` nanoseconds into
2024 with monotonic reading `n`, in the machine's local zone, here at offset
zero; identifier `n` is `"job-"` and `n`. -/
def sampleEnv : Env :=
  { clock := fun n => ⟨2024, n, some n, .local 0⟩
    ticks := 0
    uuids := fun n => "job-" ++ toString n
    drawn := 0 }

/-- A status for examples: two workers, `w1` idle and `w2` busy. -/
def sampleStatus : SystemStatus :=
  { OverallHealth := "healthy"
    WorkerPool :=
      { TotalWorkers := 2
        IdleWorkers := 1
        ProcessingJobs := 1
        QueuedJobs := 0
        FailedJobsToday := 0 }
    Workers :=
      [ { ID := "w1", Status := "idle", CurrentJob := "", LastActive := ⟨2024, 5, some 5, .local 0⟩ },
        { ID := "w2", Status := "busy", CurrentJob := "job-7", LastActive := ⟨2024, 9, some 9, .local 0⟩ } ]
    LastUpdated := ⟨2024, 9, some 9, .local 0⟩
    Messages := ["started"] }

/-- A status for examples that lists the ID `w1` twice. -/
def duplicateStatus : SystemStatus :=
  { sampleStatus with
    Workers :=
      [ { ID := "w1", Status := "idle", CurrentJob := "", LastActive := ⟨2024, 5, some 5, .local 0⟩ },
        { ID := "w1", Status := "busy", CurrentJob := "job-7", LastActive := ⟨2024, 9, some 9, .local 0⟩ } ] }

/-- A Job for examples: a narration job with its narration group filled in. -/
def sampleJob : Job :=
  { (NewJob JobTypeNarration "in.txt" "out.wav" sampleEnv).1 with
    TextContent := "hello"
    VoiceID := "v1" }

/-- The record `sampleJob` serializes to. -/
def sampleRecord : List (String × JSONValue) :=
  [ ("id", .string "job-0"),
    ("type", .string "narration"),
    ("status", .string "pending"),
    ("created_at", .timestamp 2024 0 0),
    ("updated_at", .timestamp 2024 1 0),
    ("input_file_path", .string "in.txt"),
    ("output_file_path", .string "out.wav"),
    ("text_content", .string "hello"),
    ("voice_id", .string "v1") ]

/-- A job update for examples. -/
def sampleUpdate : JobUpdate :=
  { ID := "job-0", Status := JobStatusCompleted, Error := "" }

/-- A finished Job for examples: `sampleJob` with Status completed. -/
def completedJob : Job :=
  { sampleJob with Status := JobStatusCompleted }

/-- C1: for every job type and every pair of paths, `NewJob` returns a Job
whose Status is pending, whose Type is the given type, whose input and
output paths are the given ones, and whose Error is empty. Its ID is the
identifier drawn from the generator. -/
theorem NewJob_fields (t : JobType) (inputPath outputPath : String) (e : Env) :
    (NewJob t inputPath outputPath e).1.Status = JobStatusPending ∧
    (NewJob t inputPath outputPath e).1.Type_ = t ∧
    (NewJob t inputPath outputPath e).1.InputFilePath = inputPath ∧
    (NewJob t inputPath outputPath e).1.OutputFilePath = outputPath ∧
    (NewJob t inputPath outputPath e).1.Error = "" ∧
    (NewJob t inputPath outputPath e).1.ID = e.uuids e.drawn := by
  simp [NewJob, Env.newUUID, Env.now]

/-- The constructor `NewJob` reads the clock twice: `CreatedAt` is the next reading and
`UpdatedAt` the one after it. -/
theorem NewJob_timestamps (t : JobType) (inputPath outputPath : String) (e : Env) :
    (NewJob t inputPath outputPath e).1.CreatedAt = e.clock e.ticks ∧
    (NewJob t inputPath outputPath e).1.UpdatedAt = e.clock (e.ticks + 1) := by
  simp [NewJob, Env.newUUID, Env.now]

/-- C2: on a clock whose successive readings differ, the Job returned by
`NewJob` has `CreatedAt` different from `UpdatedAt`. -/
theorem NewJob_timestamps_differ :
    (NewJob JobTypeNarration "in.txt" "out.wav" sampleEnv).1.CreatedAt ≠
      (NewJob JobTypeNarration "in.txt" "out.wav" sampleEnv).1.UpdatedAt := by
  decide

/-- C3, as stated, fails: the narration Job returned by `NewJob` does not
have its narration group populated. -/
theorem NewJob_payload_counterexample :
    ¬ (((NewJob JobTypeNarration "in.txt" "out.wav" sampleEnv).1.Type_ = JobTypeNarration →
          ¬ narrationGroupEmpty (NewJob JobTypeNarration "in.txt" "out.wav" sampleEnv).1 ∧
          mixingGroupEmpty (NewJob JobTypeNarration "in.txt" "out.wav" sampleEnv).1) ∧
       ((NewJob JobTypeNarration "in.txt" "out.wav" sampleEnv).1.Type_ = JobTypeMixing →
          ¬ mixingGroupEmpty (NewJob JobTypeNarration "in.txt" "out.wav" sampleEnv).1 ∧
          narrationGroupEmpty (NewJob JobTypeNarration "in.txt" "out.wav" sampleEnv).1)) := by
  decide

/-- C3, amended: for every Job returned by `NewJob`, whatever its Type,
both payload groups are empty: neither the narration group nor the mixing
group is populated by the constructor. -/
theorem NewJob_payload_empty (t : JobType) (inputPath outputPath : String) (e : Env) :
    narrationGroupEmpty (NewJob t inputPath outputPath e).1 ∧
    mixingGroupEmpty (NewJob t inputPath outputPath e).1 :=
  ⟨⟨rfl, rfl⟩, ⟨rfl, rfl⟩⟩

/-! ## UpdateWorkerStatus -/

/-- The loop finds nothing exactly on a list without the ID. -/
theorem updateWorkerLoop_none (workerID status currentJob : String) (e : Env) :
    ∀ ws : List WorkerStatus, (∀ w ∈ ws, w.ID ≠ workerID) →
      SystemStatus.updateWorkerLoop workerID status currentJob ws e = none := by
  intro ws
  induction ws with
  | nil => intro _; rfl
  | cons w rest ih =>
    intro h
    have hw : w.ID ≠ workerID := h w (List.mem_cons_self _ _)
    have hrest : ∀ v ∈ rest, v.ID ≠ workerID := fun v hv => h v (List.mem_cons_of_mem _ hv)
    simp [SystemStatus.updateWorkerLoop, hw, ih hrest]

/-- On a list holding the ID, the loop rewrites the first entry with that ID
in place, reads the clock once, and leaves the rest of the list alone. -/
theorem updateWorkerLoop_found (workerID status currentJob : String) (e : Env) :
    ∀ ws : List WorkerStatus, (∃ w ∈ ws, w.ID = workerID) →
      ∃ (pre : List WorkerStatus) (w : WorkerStatus) (post : List WorkerStatus),
        ws = pre ++ w :: post ∧ (∀ v ∈ pre, v.ID ≠ workerID) ∧ w.ID = workerID ∧
        SystemStatus.updateWorkerLoop workerID status currentJob ws e =
          some (pre ++ { w with Status := status, CurrentJob := currentJob,
                                LastActive := e.clock e.ticks } :: post,
                { e with ticks := e.ticks + 1 }) := by
  intro ws
  induction ws with
  | nil => rintro ⟨w, hw, _⟩; cases hw
  | cons x rest ih =>
    intro h
    by_cases hx : x.ID = workerID
    · refine ⟨[], x, rest, rfl, ?_, hx, ?_⟩
      · intro v hv; cases hv
      · simp [SystemStatus.updateWorkerLoop, hx, Env.now]
    · have hrest : ∃ w ∈ rest, w.ID = workerID := by
        obtain ⟨w, hw, hid⟩ := h
        rcases List.mem_cons.mp hw with rfl | hw
        · exact absurd hid hx
        · exact ⟨w, hw, hid⟩
      obtain ⟨pre, w, post, hsplit, hpre, hid, hrun⟩ := ih hrest
      refine ⟨x :: pre, w, post, by simp [hsplit], ?_, hid, ?_⟩
      · intro v hv
        rcases List.mem_cons.mp hv with rfl | hv
        · exact hx
        · exact hpre v hv
      · simp [SystemStatus.updateWorkerLoop, hx, hrun]

/-- C4: `UpdateWorkerStatus` is an upsert by ID. If some entry has the ID,
the list keeps its length, the first entry with that ID stays where it is
with the same ID and now holds the given status and current job (and the
clock reading as `LastActive`), and all other entries are unchanged. If no
entry has the ID, the list becomes the old list followed by exactly one new
entry with the given ID, status and current job. -/
theorem UpdateWorkerStatus_upsert (ss : SystemStatus) (workerID status currentJob : String)
    (e : Env) :
    ((∃ w ∈ ss.Workers, w.ID = workerID) →
      (ss.UpdateWorkerStatus workerID status currentJob e).1.Workers.length = ss.Workers.length ∧
      ∃ (pre : List WorkerStatus) (w w1 : WorkerStatus) (post : List WorkerStatus),
        ss.Workers = pre ++ w :: post ∧ (∀ v ∈ pre, v.ID ≠ workerID) ∧ w.ID = workerID ∧
        (ss.UpdateWorkerStatus workerID status currentJob e).1.Workers = pre ++ w1 :: post ∧
        w1.ID = workerID ∧ w1.Status = status ∧ w1.CurrentJob = currentJob ∧
        w1.LastActive = e.clock e.ticks) ∧
    ((¬ ∃ w ∈ ss.Workers, w.ID = workerID) →
      ∃ w1 : WorkerStatus,
        (ss.UpdateWorkerStatus workerID status currentJob e).1.Workers = ss.Workers ++ [w1] ∧
        w1.ID = workerID ∧ w1.Status = status ∧ w1.CurrentJob = currentJob ∧
        w1.LastActive = e.clock e.ticks) := by
  constructor
  · intro h
    obtain ⟨pre, w, post, hsplit, hpre, hid, hrun⟩ :=
      updateWorkerLoop_found workerID status currentJob e ss.Workers h
    have hres : (ss.UpdateWorkerStatus workerID status currentJob e).1.Workers =
        pre ++ { w with Status := status, CurrentJob := currentJob,
                        LastActive := e.clock e.ticks } :: post := by
      simp [SystemStatus.UpdateWorkerStatus, hrun]
    refine ⟨?_, pre, w, _, post, hsplit, hpre, hid, hres, hid, rfl, rfl, rfl⟩
    rw [hres, hsplit]; simp
  · intro h
    have hnone : ∀ w ∈ ss.Workers, w.ID ≠ workerID := fun w hw hid => h ⟨w, hw, hid⟩
    refine ⟨{ ID := workerID, Status := status, CurrentJob := currentJob,
              LastActive := e.clock e.ticks }, ?_, rfl, rfl, rfl, rfl⟩
    simp [SystemStatus.UpdateWorkerStatus,
      updateWorkerLoop_none workerID status currentJob e ss.Workers hnone, Env.now]

/-- C4 at work on `sampleStatus`: updating `w2` keeps the length, and
updating the unknown `w3` appends one entry. -/
theorem UpdateWorkerStatus_upsert_witness :
    (∃ w ∈ sampleStatus.Workers, w.ID = "w2") ∧
    (sampleStatus.UpdateWorkerStatus "w2" "idle" "" sampleEnv).1.Workers.length =
      sampleStatus.Workers.length ∧
    (¬ ∃ w ∈ sampleStatus.Workers, w.ID = "w3") ∧
    (∃ w1 : WorkerStatus,
      (sampleStatus.UpdateWorkerStatus "w3" "busy" "job-9" sampleEnv).1.Workers =
        sampleStatus.Workers ++ [w1] ∧
      w1.ID = "w3" ∧ w1.Status = "busy" ∧ w1.CurrentJob = "job-9" ∧
      w1.LastActive = sampleEnv.clock sampleEnv.ticks) :=
  ⟨by decide,
   ((UpdateWorkerStatus_upsert sampleStatus "w2" "idle" "" sampleEnv).1 (by decide)).1,
   by decide,
   (UpdateWorkerStatus_upsert sampleStatus "w3" "busy" "job-9" sampleEnv).2 (by decide)⟩

/-! ## RemoveWorkerStatus -/

/-- The loop leaves a list without the ID as it is. -/
theorem removeWorkerLoop_absent (workerID : String) :
    ∀ ws : List WorkerStatus, (∀ w ∈ ws, w.ID ≠ workerID) →
      SystemStatus.removeWorkerLoop workerID ws = ws := by
  intro ws
  induction ws with
  | nil => intro _; rfl
  | cons w rest ih =>
    intro h
    have hw : w.ID ≠ workerID := h w (List.mem_cons_self _ _)
    have hrest : ∀ v ∈ rest, v.ID ≠ workerID := fun v hv => h v (List.mem_cons_of_mem _ hv)
    simp [SystemStatus.removeWorkerLoop, hw, ih hrest]

/-- The loop only deletes: its result is a sublist of its input. -/
theorem removeWorkerLoop_sublist (workerID : String) :
    ∀ ws : List WorkerStatus, (SystemStatus.removeWorkerLoop workerID ws).Sublist ws := by
  intro ws
  induction ws with
  | nil => exact List.Sublist.refl _
  | cons w rest ih =>
    by_cases hw : w.ID = workerID
    · simp [SystemStatus.removeWorkerLoop, hw]
    · simp [SystemStatus.removeWorkerLoop, hw, ih]

/-- On a list with at most one entry of the ID, the loop is the filter that
keeps the entries with another ID. -/
theorem removeWorkerLoop_filter (workerID : String) :
    ∀ ws : List WorkerStatus, ws.countP (fun w => w.ID = workerID) ≤ 1 →
      SystemStatus.removeWorkerLoop workerID ws = ws.filter (fun w => w.ID ≠ workerID) := by
  intro ws
  induction ws with
  | nil => intro _; rfl
  | cons w rest ih =>
    intro h
    by_cases hw : w.ID = workerID
    · have hzero : rest.countP (fun w => w.ID = workerID) = 0 := by
        rw [List.countP_cons_of_pos _ _ (by simpa using hw)] at h
        omega
      have hrest : ∀ v ∈ rest, v.ID ≠ workerID := by
        intro v hv
        have := (List.countP_eq_zero.mp hzero) v hv
        simpa using this
      have hfilter : rest.filter (fun w => w.ID ≠ workerID) = rest := by
        apply List.filter_eq_self.mpr
        intro v hv
        simpa using hrest v hv
      simp only [SystemStatus.removeWorkerLoop, hw, if_true]
      rw [List.filter_cons_of_neg (by simp [hw]), hfilter]
    · have hle : rest.countP (fun w => w.ID = workerID) ≤ 1 := by
        rw [List.countP_cons_of_neg _ _ (by simpa using hw)] at h
        exact h
      simp [SystemStatus.removeWorkerLoop, hw, ih hle]

/-- C5, as stated, fails: on a status that lists `w1` twice, an entry with
ID `w1` is still there after `RemoveWorkerStatus("w1")`. -/
theorem RemoveWorkerStatus_counterexample :
    ¬ (∀ w ∈ (duplicateStatus.RemoveWorkerStatus "w1").Workers, w.ID ≠ "w1") := by
  decide

/-- C5, amended: `RemoveWorkerStatus` deletes the first entry with the ID.
For every status in which at most one entry has the ID, afterwards no entry
has it and the remaining entries are exactly the entries with a different
ID in their original order; and if no entry had the ID the list is
unchanged. -/
theorem RemoveWorkerStatus_removes (ss : SystemStatus) (workerID : String)
    (h : ss.Workers.countP (fun w => w.ID = workerID) ≤ 1) :
    (∀ w ∈ (ss.RemoveWorkerStatus workerID).Workers, w.ID ≠ workerID) ∧
    (ss.RemoveWorkerStatus workerID).Workers = ss.Workers.filter (fun w => w.ID ≠ workerID) ∧
    ((∀ w ∈ ss.Workers, w.ID ≠ workerID) →
      (ss.RemoveWorkerStatus workerID).Workers = ss.Workers) := by
  have hfilter : (ss.RemoveWorkerStatus workerID).Workers =
      ss.Workers.filter (fun w => w.ID ≠ workerID) :=
    removeWorkerLoop_filter workerID ss.Workers h
  refine ⟨?_, hfilter, ?_⟩
  · intro w hw
    rw [hfilter] at hw
    simpa using (List.mem_filter.mp hw).2
  · intro hnone
    exact removeWorkerLoop_absent workerID ss.Workers hnone

/-- C5 amended, at work on `sampleStatus`, where `w2` occurs once. -/
theorem RemoveWorkerStatus_removes_witness :
    sampleStatus.Workers.countP (fun w => w.ID = "w2") ≤ 1 ∧
    (∀ w ∈ (sampleStatus.RemoveWorkerStatus "w2").Workers, w.ID ≠ "w2") ∧
    (sampleStatus.RemoveWorkerStatus "w2").Workers =
      sampleStatus.Workers.filter (fun w => w.ID ≠ "w2") :=
  ⟨by decide,
   (RemoveWorkerStatus_removes sampleStatus "w2" (by decide)).1,
   (RemoveWorkerStatus_removes sampleStatus "w2" (by decide)).2.1⟩

/-! ## Worker IDs stay pairwise distinct -/

/-- The method `UpdateWorkerStatus` keeps the ID list when the ID is present, and
appends the ID when it is absent. -/
theorem UpdateWorkerStatus_workerIDs (ss : SystemStatus) (workerID status currentJob : String)
    (e : Env) :
    (workerID ∈ workerIDs ss →
      workerIDs (ss.UpdateWorkerStatus workerID status currentJob e).1 = workerIDs ss) ∧
    (workerID ∉ workerIDs ss →
      workerIDs (ss.UpdateWorkerStatus workerID status currentJob e).1 =
        workerIDs ss ++ [workerID]) := by
  have hmem : workerID ∈ workerIDs ss ↔ ∃ w ∈ ss.Workers, w.ID = workerID := by
    simp [workerIDs]
  constructor
  · intro h
    obtain ⟨pre, w, post, hsplit, _, hid, hrun⟩ :=
      updateWorkerLoop_found workerID status currentJob e ss.Workers (hmem.mp h)
    have hres : (ss.UpdateWorkerStatus workerID status currentJob e).1.Workers =
        pre ++ { w with Status := status, CurrentJob := currentJob,
                        LastActive := e.clock e.ticks } :: post := by
      simp [SystemStatus.UpdateWorkerStatus, hrun]
    simp [workerIDs, hres, hsplit]
  · intro h
    have hnone : ∀ w ∈ ss.Workers, w.ID ≠ workerID :=
      fun w hw hid => h (hmem.mpr ⟨w, hw, hid⟩)
    simp [workerIDs, SystemStatus.UpdateWorkerStatus,
      updateWorkerLoop_none workerID status currentJob e ss.Workers hnone, Env.now]

/-- The method `UpdateWorkerStatus` preserves distinctness of the worker IDs. -/
theorem UpdateWorkerStatus_nodup (ss : SystemStatus) (workerID status currentJob : String)
    (e : Env) (h : (workerIDs ss).Nodup) :
    (workerIDs (ss.UpdateWorkerStatus workerID status currentJob e).1).Nodup := by
  by_cases hmem : workerID ∈ workerIDs ss
  · rw [(UpdateWorkerStatus_workerIDs ss workerID status currentJob e).1 hmem]
    exact h
  · rw [(UpdateWorkerStatus_workerIDs ss workerID status currentJob e).2 hmem]
    exact List.nodup_append.mpr ⟨h, List.nodup_singleton _, by
      intro a ha hb
      rw [List.mem_singleton] at hb
      exact hmem (hb ▸ ha)⟩

/-- The method `RemoveWorkerStatus` preserves distinctness of the worker IDs. -/
theorem RemoveWorkerStatus_nodup (ss : SystemStatus) (workerID : String)
    (h : (workerIDs ss).Nodup) : (workerIDs (ss.RemoveWorkerStatus workerID)).Nodup :=
  List.Nodup.sublist ((removeWorkerLoop_sublist workerID ss.Workers).map _) h

/-- Every call preserves distinctness of the worker IDs. -/
theorem Call.run_nodup (c : Call) (st : SystemStatus × Env) (h : (workerIDs st.1).Nodup) :
    (workerIDs (c.run st).1).Nodup := by
  obtain ⟨ss, e⟩ := st
  cases c with
  | addMessage msg => exact h
  | updateWorkerPoolStatus total idle processing queued failed => exact h
  | updateWorkerStatus workerID status currentJob =>
    exact UpdateWorkerStatus_nodup ss workerID status currentJob e h
  | removeWorkerStatus workerID => exact RemoveWorkerStatus_nodup ss workerID h
  | updateOverallHealth health => exact h
  | refreshLastUpdated => exact h

/-- Any sequence of calls preserves distinctness of the worker IDs. -/
theorem runCalls_nodup (calls : List Call) :
    ∀ st : SystemStatus × Env, (workerIDs st.1).Nodup → (workerIDs (runCalls calls st).1).Nodup := by
  induction calls with
  | nil => intro st h; exact h
  | cons c rest ih =>
    intro st h
    exact ih (c.run st) (Call.run_nodup c st h)

/-- C6: worker IDs are a key of the Workers collection. Every status
reachable from `NewSystemStatus()` by a finite sequence of mutation-method
calls has pairwise-distinct worker IDs. -/
theorem reachable_workerIDs_nodup (ss : SystemStatus) (h : Reachable ss) :
    (workerIDs ss).Nodup := by
  obtain ⟨e, calls, rfl⟩ := h
  exact runCalls_nodup calls (NewSystemStatus e) List.nodup_nil

/-- C6 at work: registering `w1` twice and `w2` once, then removing `w2`. -/
theorem reachable_workerIDs_nodup_witness :
    Reachable (statusAfter sampleEnv
      [.updateWorkerStatus "w1" "idle" "", .updateWorkerStatus "w2" "busy" "job-1",
       .updateWorkerStatus "w1" "busy" "job-2", .removeWorkerStatus "w2"]) ∧
    (workerIDs (statusAfter sampleEnv
      [.updateWorkerStatus "w1" "idle" "", .updateWorkerStatus "w2" "busy" "job-1",
       .updateWorkerStatus "w1" "busy" "job-2", .removeWorkerStatus "w2"])).Nodup :=
  ⟨⟨sampleEnv, _, rfl⟩, reachable_workerIDs_nodup _ ⟨sampleEnv, _, rfl⟩⟩

/-! ## What each mutation method leaves alone -/

/-- The method `UpdateWorkerStatus` touches no field other than `Workers`. -/
theorem UpdateWorkerStatus_others (ss : SystemStatus) (workerID status currentJob : String)
    (e : Env) :
    (ss.UpdateWorkerStatus workerID status currentJob e).1.OverallHealth = ss.OverallHealth ∧
    (ss.UpdateWorkerStatus workerID status currentJob e).1.WorkerPool = ss.WorkerPool ∧
    (ss.UpdateWorkerStatus workerID status currentJob e).1.LastUpdated = ss.LastUpdated ∧
    (ss.UpdateWorkerStatus workerID status currentJob e).1.Messages = ss.Messages := by
  unfold SystemStatus.UpdateWorkerStatus
  cases SystemStatus.updateWorkerLoop workerID status currentJob ss.Workers e with
  | none => exact ⟨rfl, rfl, rfl, rfl⟩
  | some p => exact ⟨rfl, rfl, rfl, rfl⟩

/-- Only `UpdateWorkerPoolStatus` changes the pool counters. -/
theorem Call.run_workerPool (c : Call) (st : SystemStatus × Env)
    (h : ∀ total idle processing queued failed,
      c ≠ Call.updateWorkerPoolStatus total idle processing queued failed) :
    (c.run st).1.WorkerPool = st.1.WorkerPool := by
  obtain ⟨ss, e⟩ := st
  cases c with
  | addMessage msg => rfl
  | updateWorkerPoolStatus total idle processing queued failed =>
    exact absurd rfl (h total idle processing queued failed)
  | updateWorkerStatus workerID status currentJob =>
    exact (UpdateWorkerStatus_others ss workerID status currentJob e).2.1
  | removeWorkerStatus workerID => rfl
  | updateOverallHealth health => rfl
  | refreshLastUpdated => rfl

/-- C9: each mutation method changes only its own target. `AddMessage`
leaves every field but Messages unchanged, `UpdateWorkerPoolStatus` every
field but WorkerPool, `UpdateWorkerStatus` and `RemoveWorkerStatus` every
field but Workers, `UpdateOverallHealth` every field but OverallHealth, and
`RefreshLastUpdated` every field but LastUpdated. -/
theorem mutation_methods_frame (ss : SystemStatus) (e : Env) :
    (∀ msg : String,
      (ss.AddMessage msg).OverallHealth = ss.OverallHealth ∧
      (ss.AddMessage msg).WorkerPool = ss.WorkerPool ∧
      (ss.AddMessage msg).Workers = ss.Workers ∧
      (ss.AddMessage msg).LastUpdated = ss.LastUpdated) ∧
    (∀ total idle processing queued failed : Int,
      (ss.UpdateWorkerPoolStatus total idle processing queued failed).OverallHealth =
        ss.OverallHealth ∧
      (ss.UpdateWorkerPoolStatus total idle processing queued failed).Workers = ss.Workers ∧
      (ss.UpdateWorkerPoolStatus total idle processing queued failed).LastUpdated =
        ss.LastUpdated ∧
      (ss.UpdateWorkerPoolStatus total idle processing queued failed).Messages = ss.Messages) ∧
    (∀ workerID status currentJob : String,
      (ss.UpdateWorkerStatus workerID status currentJob e).1.OverallHealth = ss.OverallHealth ∧
      (ss.UpdateWorkerStatus workerID status currentJob e).1.WorkerPool = ss.WorkerPool ∧
      (ss.UpdateWorkerStatus workerID status currentJob e).1.LastUpdated = ss.LastUpdated ∧
      (ss.UpdateWorkerStatus workerID status currentJob e).1.Messages = ss.Messages) ∧
    (∀ workerID : String,
      (ss.RemoveWorkerStatus workerID).OverallHealth = ss.OverallHealth ∧
      (ss.RemoveWorkerStatus workerID).WorkerPool = ss.WorkerPool ∧
      (ss.RemoveWorkerStatus workerID).LastUpdated = ss.LastUpdated ∧
      (ss.RemoveWorkerStatus workerID).Messages = ss.Messages) ∧
    (∀ health : String,
      (ss.UpdateOverallHealth health).WorkerPool = ss.WorkerPool ∧
      (ss.UpdateOverallHealth health).Workers = ss.Workers ∧
      (ss.UpdateOverallHealth health).LastUpdated = ss.LastUpdated ∧
      (ss.UpdateOverallHealth health).Messages = ss.Messages) ∧
    ((ss.RefreshLastUpdated e).1.OverallHealth = ss.OverallHealth ∧
      (ss.RefreshLastUpdated e).1.WorkerPool = ss.WorkerPool ∧
      (ss.RefreshLastUpdated e).1.Workers = ss.Workers ∧
      (ss.RefreshLastUpdated e).1.Messages = ss.Messages) :=
  ⟨fun _ => ⟨rfl, rfl, rfl, rfl⟩,
   fun _ _ _ _ _ => ⟨rfl, rfl, rfl, rfl⟩,
   fun workerID status currentJob => UpdateWorkerStatus_others ss workerID status currentJob e,
   fun _ => ⟨rfl, rfl, rfl, rfl⟩,
   fun _ => ⟨rfl, rfl, rfl, rfl⟩,
   ⟨rfl, rfl, rfl, rfl⟩⟩

/-! ## The pool counters -/

/-- A sequence of calls whose `UpdateWorkerPoolStatus` calls all pass
`idle + processing = total` keeps the counter equation. -/
theorem runCalls_poolCounters (calls : List Call) :
    ∀ st : SystemStatus × Env,
      (∀ total idle processing queued failed,
        Call.updateWorkerPoolStatus total idle processing queued failed ∈ calls →
          idle + processing = total) →
      st.1.WorkerPool.IdleWorkers + st.1.WorkerPool.ProcessingJobs =
        st.1.WorkerPool.TotalWorkers →
      (runCalls calls st).1.WorkerPool.IdleWorkers +
          (runCalls calls st).1.WorkerPool.ProcessingJobs =
        (runCalls calls st).1.WorkerPool.TotalWorkers := by
  induction calls with
  | nil => intro st _ h; exact h
  | cons c rest ih =>
    intro st hcalls h
    refine ih (c.run st)
      (fun total idle processing queued failed hmem =>
        hcalls total idle processing queued failed (List.mem_cons_of_mem _ hmem)) ?_
    by_cases hc : ∃ total idle processing queued failed,
        c = Call.updateWorkerPoolStatus total idle processing queued failed
    · obtain ⟨total, idle, processing, queued, failed, rfl⟩ := hc
      exact hcalls total idle processing queued failed (List.mem_cons_self _ _)
    · have hpool : (c.run st).1.WorkerPool = st.1.WorkerPool :=
        Call.run_workerPool c st
          (fun total idle processing queued failed heq =>
            hc ⟨total, idle, processing, queued, failed, heq⟩)
      rw [hpool]; exact h

/-- C7, as stated, fails: after `UpdateWorkerPoolStatus(1, 0, 0, 0, 0)` on a
fresh status, a reachable status has idle + processing = 0 but total = 1. -/
theorem poolCounters_counterexample :
    Reachable (statusAfter sampleEnv [.updateWorkerPoolStatus 1 0 0 0 0]) ∧
    (statusAfter sampleEnv [.updateWorkerPoolStatus 1 0 0 0 0]).WorkerPool.IdleWorkers +
        (statusAfter sampleEnv [.updateWorkerPoolStatus 1 0 0 0 0]).WorkerPool.ProcessingJobs ≠
      (statusAfter sampleEnv [.updateWorkerPoolStatus 1 0 0 0 0]).WorkerPool.TotalWorkers :=
  ⟨⟨sampleEnv, _, rfl⟩, by decide⟩

/-- C7, amended: the pool counters satisfy idle + processing = total for
`NewSystemStatus()` and for every status obtained from it by a sequence of
mutation-method calls in which every `UpdateWorkerPoolStatus(total, idle,
processing, queued, failed)` call has idle + processing = total. -/
theorem poolCounters_consistent (e : Env) (calls : List Call)
    (h : ∀ total idle processing queued failed,
      Call.updateWorkerPoolStatus total idle processing queued failed ∈ calls →
        idle + processing = total) :
    (NewSystemStatus e).1.WorkerPool.IdleWorkers + (NewSystemStatus e).1.WorkerPool.ProcessingJobs =
      (NewSystemStatus e).1.WorkerPool.TotalWorkers ∧
    (statusAfter e calls).WorkerPool.IdleWorkers + (statusAfter e calls).WorkerPool.ProcessingJobs =
      (statusAfter e calls).WorkerPool.TotalWorkers :=
  ⟨rfl, runCalls_poolCounters calls (NewSystemStatus e) h rfl⟩

/-- C7 amended, at work: two workers registered, one idle and one busy. -/
theorem poolCounters_consistent_witness :
    (statusAfter sampleEnv
        [.updateWorkerPoolStatus 2 1 1 0 0, .addMessage "ok",
         .updateWorkerStatus "w1" "idle" ""]).WorkerPool.IdleWorkers +
      (statusAfter sampleEnv
        [.updateWorkerPoolStatus 2 1 1 0 0, .addMessage "ok",
         .updateWorkerStatus "w1" "idle" ""]).WorkerPool.ProcessingJobs =
    (statusAfter sampleEnv
        [.updateWorkerPoolStatus 2 1 1 0 0, .addMessage "ok",
         .updateWorkerStatus "w1" "idle" ""]).WorkerPool.TotalWorkers :=
  (poolCounters_consistent sampleEnv
    [.updateWorkerPoolStatus 2 1 1 0 0, .addMessage "ok", .updateWorkerStatus "w1" "idle" ""]
    (by
      intro total idle processing queued failed hmem
      simp at hmem
      obtain ⟨rfl, rfl, rfl, _, _⟩ := hmem
      rfl)).2

/-! ## Idle workers and their current job -/

/-- The method `UpdateWorkerStatus`, with a status and current job that respect "idle
means no current job" keeps that property of the list. -/
theorem UpdateWorkerStatus_idle (ss : SystemStatus) (workerID status currentJob : String)
    (e : Env) (hnew : status = "idle" → currentJob = "")
    (h : ∀ w ∈ ss.Workers, w.Status = "idle" → w.CurrentJob = "") :
    ∀ w ∈ (ss.UpdateWorkerStatus workerID status currentJob e).1.Workers,
      w.Status = "idle" → w.CurrentJob = "" := by
  by_cases hex : ∃ w ∈ ss.Workers, w.ID = workerID
  · obtain ⟨pre, w0, post, hsplit, _, _, hrun⟩ :=
      updateWorkerLoop_found workerID status currentJob e ss.Workers hex
    have hres : (ss.UpdateWorkerStatus workerID status currentJob e).1.Workers =
        pre ++ { w0 with Status := status, CurrentJob := currentJob,
                         LastActive := e.clock e.ticks } :: post := by
      simp [SystemStatus.UpdateWorkerStatus, hrun]
    intro w hw hidle
    rw [hres] at hw
    rcases List.mem_append.mp hw with hpre | hw
    · exact h w (by rw [hsplit]; exact List.mem_append_left _ hpre) hidle
    · rcases List.mem_cons.mp hw with rfl | hpost
      · exact hnew hidle
      · exact h w (by rw [hsplit]; exact List.mem_append_right _ (List.mem_cons_of_mem _ hpost))
          hidle
  · have hnone : ∀ w ∈ ss.Workers, w.ID ≠ workerID := fun w hw hid => hex ⟨w, hw, hid⟩
    have hres : (ss.UpdateWorkerStatus workerID status currentJob e).1.Workers =
        ss.Workers ++ [{ ID := workerID, Status := status, CurrentJob := currentJob,
                         LastActive := e.clock e.ticks }] := by
      simp [SystemStatus.UpdateWorkerStatus,
        updateWorkerLoop_none workerID status currentJob e ss.Workers hnone, Env.now]
    intro w hw hidle
    rw [hres] at hw
    rcases List.mem_append.mp hw with hold | hw
    · exact h w hold hidle
    · rw [List.mem_singleton] at hw
      subst hw
      exact hnew hidle

/-- A sequence of calls whose `UpdateWorkerStatus` calls never pass a
current job together with the status "idle" keeps "idle means no current
job". -/
theorem runCalls_idle (calls : List Call) :
    ∀ st : SystemStatus × Env,
      (∀ workerID currentJob,
        Call.updateWorkerStatus workerID "idle" currentJob ∈ calls → currentJob = "") →
      (∀ w ∈ st.1.Workers, w.Status = "idle" → w.CurrentJob = "") →
      ∀ w ∈ (runCalls calls st).1.Workers, w.Status = "idle" → w.CurrentJob = "" := by
  induction calls with
  | nil => intro st _ h; exact h
  | cons c rest ih =>
    intro st hcalls h
    refine ih (c.run st)
      (fun workerID currentJob hmem => hcalls workerID currentJob (List.mem_cons_of_mem _ hmem)) ?_
    obtain ⟨ss, e⟩ := st
    cases c with
    | addMessage msg => exact h
    | updateWorkerPoolStatus total idle processing queued failed => exact h
    | updateWorkerStatus workerID status currentJob =>
      refine UpdateWorkerStatus_idle ss workerID status currentJob e ?_ h
      intro hstatus
      subst hstatus
      exact hcalls workerID currentJob (List.mem_cons_self _ _)
    | removeWorkerStatus workerID =>
      intro w hw
      exact h w ((removeWorkerLoop_sublist workerID ss.Workers).subset hw)
    | updateOverallHealth health => exact h
    | refreshLastUpdated => exact h

/-- C8, as stated, fails: `UpdateWorkerStatus("w1", "idle", "job-1")` on a
fresh status gives a reachable status with an idle entry that has a current
job. -/
theorem idle_currentJob_counterexample :
    Reachable (statusAfter sampleEnv [.updateWorkerStatus "w1" "idle" "job-1"]) ∧
    ¬ (∀ w ∈ (statusAfter sampleEnv [.updateWorkerStatus "w1" "idle" "job-1"]).Workers,
        w.Status = "idle" → w.CurrentJob = "") :=
  ⟨⟨sampleEnv, _, rfl⟩, by decide⟩

/-- C8, amended: `NewWorkerStatus(id, status)` always has an empty current
job, and in every status obtained from `NewSystemStatus()` by a sequence of
mutation-method calls in which every `UpdateWorkerStatus` call with status
"idle" passes an empty current job, every entry whose status is "idle" has
an empty current job. -/
theorem idle_currentJob_empty (id status : String) (e0 e : Env) (calls : List Call)
    (h : ∀ workerID currentJob,
      Call.updateWorkerStatus workerID "idle" currentJob ∈ calls → currentJob = "") :
    (NewWorkerStatus id status e0).1.CurrentJob = "" ∧
    ∀ w ∈ (statusAfter e calls).Workers, w.Status = "idle" → w.CurrentJob = "" :=
  ⟨rfl, runCalls_idle calls (NewSystemStatus e) h (fun w hw => by cases hw)⟩

/-- C8 amended, at work: a worker goes busy with a job and back to idle
without one. -/
theorem idle_currentJob_empty_witness :
    (NewWorkerStatus "w1" "idle" sampleEnv).1.CurrentJob = "" ∧
    ∀ w ∈ (statusAfter sampleEnv
        [.updateWorkerStatus "w1" "busy" "job-1", .updateWorkerStatus "w2" "idle" "",
         .updateWorkerStatus "w1" "idle" ""]).Workers,
      w.Status = "idle" → w.CurrentJob = "" :=
  idle_currentJob_empty "w1" "idle" sampleEnv sampleEnv
    [.updateWorkerStatus "w1" "busy" "job-1", .updateWorkerStatus "w2" "idle" "",
     .updateWorkerStatus "w1" "idle" ""]
    (by
      intro workerID currentJob hmem
      simp at hmem
      rcases hmem with ⟨_, rfl⟩ | ⟨_, rfl⟩
      · rfl
      · rfl)

/-! ## MarshalBinary -/

/-- A string has length zero exactly when it is the empty string. -/
theorem string_length_eq_zero (s : String) : s.length = 0 ↔ s = "" := by
  constructor
  · intro h
    cases s with
    | mk data =>
      have hdata : data = [] := List.length_eq_zero.mp h
      subst hdata
      rfl
  · intro h
    subst h
    rfl

/-- The keys of an encoded struct are the keys of the fields that are not
skipped, in field order. -/
theorem encodeStruct_keys :
    ∀ (fs : List StructField) (r : List (String × JSONValue)), encodeStruct fs = .ok r →
      recordKeys r =
        (fs.filter (fun f => !(f.omitEmpty && isEmptyValue f.value))).map (fun f => f.key) := by
  intro fs
  induction fs with
  | nil =>
    intro r h
    simp only [encodeStruct, Except.ok.injEq] at h
    subst h
    rfl
  | cons f rest ih =>
    intro r h
    cases hskip : (f.omitEmpty && isEmptyValue f.value) with
    | true =>
      simp only [encodeStruct, hskip, if_true] at h
      rw [List.filter_cons_of_neg (by
        show ¬ (!(f.omitEmpty && isEmptyValue f.value)) = true
        rw [hskip]; decide)]
      exact ih r h
    | false =>
      simp only [encodeStruct, hskip] at h
      rw [List.filter_cons_of_pos (by
        show (!(f.omitEmpty && isEmptyValue f.value)) = true
        rw [hskip]; rfl)]
      cases hv : encodeValue f.value with
      | error err => simp [hv] at h
      | ok v =>
        cases hrest : encodeStruct rest with
        | error err => simp [hv, hrest] at h
        | ok r1 =>
          simp [hv, hrest] at h
          subst h
          rw [List.map_cons, ← ih r1 hrest]
          rfl

/-- The emptiness test on a string field is the test for the empty string. -/
theorem isEmptyValue_str (s : String) : isEmptyValue (.str s) = decide (s = "") := by
  by_cases h : s = ""
  · subst h; rfl
  · have hlen : s.length ≠ 0 := fun hl => h ((string_length_eq_zero s).mp hl)
    simp [isEmptyValue, h, hlen]

/-- The keys of a serialized Job: the seven unconditional keys, then each
`omitempty` key whose field is not empty, in declaration order. -/
theorem MarshalBinary_keys (j : Job) (r : List (String × JSONValue))
    (h : j.MarshalBinary = .ok r) :
    recordKeys r =
      ["id", "type", "status", "created_at", "updated_at", "input_file_path",
        "output_file_path"]
      ++ (if j.TextContent = "" then [] else ["text_content"])
      ++ (if j.VoiceID = "" then [] else ["voice_id"])
      ++ (if j.BackgroundAudioFilePath = "" then [] else ["background_audio_file_path"])
      ++ (if j.Volume.isZero = true then [] else ["volume"])
      ++ (if j.Error = "" then [] else ["error"]) := by
  rw [encodeStruct_keys j.fields r h]
  have hfloat : ∀ f : Float64, isEmptyValue (.float f) = f.isZero := fun _ => rfl
  simp only [Job.fields, List.filter_cons, List.filter_nil, isEmptyValue_str, hfloat,
    Bool.false_and, Bool.true_and, Bool.not_false, if_true]
  by_cases h1 : j.TextContent = "" <;> by_cases h2 : j.VoiceID = "" <;>
    by_cases h3 : j.BackgroundAudioFilePath = "" <;> by_cases h4 : j.Volume.isZero = true <;>
    by_cases h5 : j.Error = "" <;>
    simp [h1, h2, h3, h4, h5]

/-- C10: for every Job whose serialization succeeds, the record made by
`MarshalBinary` always has the keys id, type, status, created_at,
updated_at, input_file_path and output_file_path; it has each of
text_content, voice_id, background_audio_file_path and error exactly when
that field of the Job is not empty, and volume exactly when Volume is not
zero; it has no other key, and no key twice. -/
theorem MarshalBinary_record_keys (j : Job) (r : List (String × JSONValue))
    (h : j.MarshalBinary = .ok r) :
    (∀ k ∈ ["id", "type", "status", "created_at", "updated_at", "input_file_path",
        "output_file_path"], k ∈ recordKeys r) ∧
    ("text_content" ∈ recordKeys r ↔ j.TextContent ≠ "") ∧
    ("voice_id" ∈ recordKeys r ↔ j.VoiceID ≠ "") ∧
    ("background_audio_file_path" ∈ recordKeys r ↔ j.BackgroundAudioFilePath ≠ "") ∧
    ("volume" ∈ recordKeys r ↔ j.Volume.isZero = false) ∧
    ("error" ∈ recordKeys r ↔ j.Error ≠ "") ∧
    (∀ k ∈ recordKeys r,
      k ∈ ["id", "type", "status", "created_at", "updated_at", "input_file_path",
        "output_file_path", "text_content", "voice_id", "background_audio_file_path",
        "volume", "error"]) ∧
    (recordKeys r).Nodup := by
  rw [MarshalBinary_keys j r h]
  by_cases h1 : j.TextContent = "" <;> by_cases h2 : j.VoiceID = "" <;>
    by_cases h3 : j.BackgroundAudioFilePath = "" <;> cases h4 : j.Volume.isZero <;>
    by_cases h5 : j.Error = "" <;>
    simp only [h1, h2, h3, h5, if_true, if_false, ne_eq, not_false_eq_true, not_true_eq_false,
      List.append_nil, List.cons_append, List.nil_append, Bool.false_eq_true] <;>
    decide

/-- C10 at work: `sampleJob` serializes to `sampleRecord`, which has the
seven unconditional keys, text_content and voice_id, and no volume. -/
theorem MarshalBinary_record_keys_witness :
    sampleJob.MarshalBinary = .ok sampleRecord ∧
    ("text_content" ∈ recordKeys sampleRecord ↔ sampleJob.TextContent ≠ "") ∧
    ("volume" ∈ recordKeys sampleRecord ↔ sampleJob.Volume.isZero = false) :=
  ⟨rfl,
   (MarshalBinary_record_keys sampleJob sampleRecord rfl).2.1,
   (MarshalBinary_record_keys sampleJob sampleRecord rfl).2.2.2.2.1⟩

/-! ## NewSystemStatus, AddMessage, UpdateWorkerPoolStatus -/

/-- C14: `NewSystemStatus()` returns a status whose OverallHealth is
"healthy", whose five pool counters are all 0, whose Workers list is empty
and whose Messages list is empty; its LastUpdated is the clock reading. -/
theorem NewSystemStatus_defaults (e : Env) :
    (NewSystemStatus e).1.OverallHealth = "healthy" ∧
    (NewSystemStatus e).1.WorkerPool.TotalWorkers = 0 ∧
    (NewSystemStatus e).1.WorkerPool.IdleWorkers = 0 ∧
    (NewSystemStatus e).1.WorkerPool.ProcessingJobs = 0 ∧
    (NewSystemStatus e).1.WorkerPool.QueuedJobs = 0 ∧
    (NewSystemStatus e).1.WorkerPool.FailedJobsToday = 0 ∧
    (NewSystemStatus e).1.Workers = [] ∧
    (NewSystemStatus e).1.Messages = [] ∧
    (NewSystemStatus e).1.LastUpdated = e.clock e.ticks :=
  ⟨rfl, rfl, rfl, rfl, rfl, rfl, rfl, rfl, rfl⟩

/-- A run of `AddMessage` calls appends the messages in call order. -/
theorem runCalls_addMessages (msgs : List String) :
    ∀ st : SystemStatus × Env,
      (runCalls (msgs.map Call.addMessage) st).1.Messages = st.1.Messages ++ msgs := by
  induction msgs with
  | nil => intro st; simp [runCalls]
  | cons m rest ih =>
    intro st
    obtain ⟨ss, e⟩ := st
    have hstep := ih (Call.run (Call.addMessage m) (ss, e))
    simp only [runCalls, List.map_cons, List.foldl_cons] at hstep ⊢
    rw [hstep]
    simp [Call.run, SystemStatus.AddMessage]

/-- C15: `AddMessage` appends at the tail. After `AddMessage(msg)` the
Messages are the previous ones followed by `msg`, so after any sequence of
`AddMessage` calls on `NewSystemStatus()` the Messages are exactly the added
messages in call order, duplicates kept. -/
theorem AddMessage_appends (ss : SystemStatus) (msg : String) (e : Env) (msgs : List String) :
    (ss.AddMessage msg).Messages = ss.Messages ++ [msg] ∧
    (statusAfter e (msgs.map Call.addMessage)).Messages = msgs := by
  refine ⟨rfl, ?_⟩
  have h := runCalls_addMessages msgs (NewSystemStatus e)
  simpa [statusAfter, NewSystemStatus, Env.now] using h

/-- C16: `UpdateWorkerPoolStatus(total, idle, processing, queued, failed)`
stores its arguments positionally, for all integers and whatever the
counters were before: the last call wins. -/
theorem UpdateWorkerPoolStatus_stores (ss : SystemStatus)
    (total idle processing queued failed : Int) (t0 i0 p0 q0 f0 : Int) :
    (ss.UpdateWorkerPoolStatus total idle processing queued failed).WorkerPool.TotalWorkers =
      total ∧
    (ss.UpdateWorkerPoolStatus total idle processing queued failed).WorkerPool.IdleWorkers =
      idle ∧
    (ss.UpdateWorkerPoolStatus total idle processing queued failed).WorkerPool.ProcessingJobs =
      processing ∧
    (ss.UpdateWorkerPoolStatus total idle processing queued failed).WorkerPool.QueuedJobs =
      queued ∧
    (ss.UpdateWorkerPoolStatus total idle processing queued failed).WorkerPool.FailedJobsToday =
      failed ∧
    ((ss.UpdateWorkerPoolStatus t0 i0 p0 q0 f0).UpdateWorkerPoolStatus
        total idle processing queued failed).WorkerPool =
      (ss.UpdateWorkerPoolStatus total idle processing queued failed).WorkerPool :=
  ⟨rfl, rfl, rfl, rfl, rfl, rfl⟩

/-! ## Upsert followed by remove -/

/-- The loop of `RemoveWorkerStatus` on a list without the ID that is
followed by one entry with the ID deletes that last entry. -/
theorem removeWorkerLoop_append_fresh (workerID : String) (w1 : WorkerStatus)
    (hid : w1.ID = workerID) :
    ∀ ws : List WorkerStatus, (∀ w ∈ ws, w.ID ≠ workerID) →
      SystemStatus.removeWorkerLoop workerID (ws ++ [w1]) = ws := by
  intro ws
  induction ws with
  | nil => intro _; simp [SystemStatus.removeWorkerLoop, hid]
  | cons w rest ih =>
    intro h
    have hw : w.ID ≠ workerID := h w (List.mem_cons_self _ _)
    have hrest : ∀ v ∈ rest, v.ID ≠ workerID := fun v hv => h v (List.mem_cons_of_mem _ hv)
    simp [SystemStatus.removeWorkerLoop, hw, ih hrest]

/-- C17: upsert followed by remove of a fresh ID is the identity on the
worker list. For every status and every worker ID that does not occur in its
Workers, `UpdateWorkerStatus(workerID, status, currentJob)` followed by
`RemoveWorkerStatus(workerID)` leaves Workers equal to its original value,
for any status and current job. -/
theorem upsert_then_remove_fresh (ss : SystemStatus) (workerID status currentJob : String)
    (e : Env) (h : ∀ w ∈ ss.Workers, w.ID ≠ workerID) :
    ((ss.UpdateWorkerStatus workerID status currentJob e).1.RemoveWorkerStatus workerID).Workers =
      ss.Workers := by
  have hres : (ss.UpdateWorkerStatus workerID status currentJob e).1.Workers =
      ss.Workers ++ [{ ID := workerID, Status := status, CurrentJob := currentJob,
                       LastActive := e.clock e.ticks }] := by
    simp [SystemStatus.UpdateWorkerStatus,
      updateWorkerLoop_none workerID status currentJob e ss.Workers h, Env.now]
  show SystemStatus.removeWorkerLoop workerID
    (ss.UpdateWorkerStatus workerID status currentJob e).1.Workers = ss.Workers
  rw [hres]
  exact removeWorkerLoop_append_fresh workerID _ rfl ss.Workers h

/-- C17 at work on `sampleStatus`, where `w3` does not occur. -/
theorem upsert_then_remove_fresh_witness :
    (∀ w ∈ sampleStatus.Workers, w.ID ≠ "w3") ∧
    ((sampleStatus.UpdateWorkerStatus "w3" "busy" "job-9" sampleEnv).1.RemoveWorkerStatus
      "w3").Workers = sampleStatus.Workers :=
  ⟨by decide, upsert_then_remove_fresh sampleStatus "w3" "busy" "job-9" sampleEnv (by decide)⟩

/-! ## NewJobEvent and UnmarshalPayload -/

/-- Serializing a `JobUpdate` never fails: the record has `id`, then
`status` and `error` when they are not empty. -/
theorem JobUpdate_encode (u : JobUpdate) :
    encodeStruct u.fields =
      .ok ([("id", JSONValue.string u.ID)]
        ++ (if u.Status = "" then [] else [("status", JSONValue.string u.Status)])
        ++ (if u.Error = "" then [] else [("error", JSONValue.string u.Error)])) := by
  by_cases h1 : u.Status = "" <;> by_cases h2 : u.Error = "" <;>
    simp [JobUpdate.fields, encodeStruct, encodeValue, isEmptyValue_str, h1, h2]

/-- The three tags of `JobUpdate` select their fields. -/
theorem lookupField_jobUpdateTags :
    lookupField jobUpdateTags "id" = some JobUpdateField.id ∧
    lookupField jobUpdateTags "status" = some JobUpdateField.status ∧
    lookupField jobUpdateTags "error" = some JobUpdateField.error := by
  decide

/-- Decoding the record of a `JobUpdate` into an empty `JobUpdate` gives the
update back, without error. -/
theorem JobUpdate_decode_encode (u : JobUpdate) :
    decodeObject jobUpdateTags JobUpdate.store JobUpdate.zero none
      ([("id", JSONValue.string u.ID)]
        ++ (if u.Status = "" then [] else [("status", JSONValue.string u.Status)])
        ++ (if u.Error = "" then [] else [("error", JSONValue.string u.Error)])) =
      (u, none) := by
  obtain ⟨hid, hstatus, herror⟩ := lookupField_jobUpdateTags
  obtain ⟨id, status, error⟩ := u
  by_cases h1 : status = "" <;> by_cases h2 : error = "" <;>
    simp [decodeObject, hid, hstatus, herror, JobUpdate.store, storeString, decodeString,
      JobUpdate.zero, h1, h2]

/-- The event operand that `NewJobEvent` builds has the given tag as Type
and a payload that `UnmarshalPayload` decodes, into an empty `JobUpdate`,
to the update it was built from. -/
theorem NewJobEvent_event (t : String) (u : JobUpdate) :
    (NewJobEvent t u).1.Type_ = t ∧
    (NewJobEvent t u).1.UnmarshalPayload JobUpdate.zero = (u, none) := by
  have hdec := JobUpdate_decode_encode u
  constructor
  · simp only [NewJobEvent, JobUpdate_encode]
  · simp only [NewJobEvent, JobUpdate_encode, JobEvent.UnmarshalPayload]
    exact hdec

/-- On every event tag and every `JobUpdate`, the `return` statement that
`NewJobEvent` reaches supplies no error operand. -/
theorem NewJobEvent_operand (t : String) (u : JobUpdate) :
    (NewJobEvent t u).2 = ErrorOperand.absent := by
  simp only [NewJobEvent, JobUpdate_encode]

/-- C11: on `NewJobEvent("job.updated", sampleUpdate)` the `return` statement
reached supplies the event and no error operand, where the claim has the
call succeed, that is return the event with a nil error. -/
theorem NewJobEvent_no_error_operand :
    (NewJobEvent JobEventUpdated sampleUpdate).2 = ErrorOperand.absent ∧
    (NewJobEvent JobEventUpdated sampleUpdate).2 ≠ ErrorOperand.nil := by
  rw [NewJobEvent_operand]
  exact ⟨rfl, by decide⟩

/-! ## UnmarshalBinary and the Status of a Job -/

/-- The tag table of `Job` selects the Status field only for a name that
folds to `status`. -/
theorem lookupField_jobTags_status (key : String)
    (h : lookupField jobTags key = some JobField.status) : foldName key = "status" := by
  simp only [lookupField, jobTags, List.find?_cons, List.find?_nil] at h
  repeat' split at h
  all_goals simp_all

/-- Storing into a field other than Status leaves Status as it is. -/
theorem Job.store_status (j j1 : Job) (f : JobField) (v : JSONValue) (hf : f ≠ JobField.status)
    (h : j.store f v = StoreOutcome.stored j1) : j1.Status = j.Status := by
  cases f <;>
    simp only [Job.store, storeString, storeFloat, storeTime] at h <;>
    first
    | exact absurd rfl hf
    | ((repeat' split at h) <;> first | (simp at h; done) | (simp at h; subst h; rfl))

/-- A store into a field other than Status that stops the decoding leaves
Status as it is. -/
theorem Job.store_abort_status (j j1 : Job) (f : JobField) (v : JSONValue) (err : String)
    (hf : f ≠ JobField.status) (h : j.store f v = StoreOutcome.abort j1 err) :
    j1.Status = j.Status := by
  cases f <;>
    simp only [Job.store, storeString, storeFloat, storeTime] at h <;>
    first
    | exact absurd rfl hf
    | ((repeat' split at h) <;> simp at h <;> (obtain ⟨h1, _⟩ := h; subst h1; rfl))

/-- Decoding a record none of whose member names folds to `status` leaves
Status as it is, whatever else it stores and whether or not it fails. -/
theorem decodeObject_status (data : List (String × JSONValue)) :
    ∀ (j : Job) (saved : Option String),
      (∀ kv ∈ data, foldName kv.1 ≠ "status") →
      (decodeObject jobTags Job.store j saved data).1.Status = j.Status := by
  induction data with
  | nil => intro j saved _; rfl
  | cons kv rest ih =>
    intro j saved h
    obtain ⟨key, v⟩ := kv
    have hkey : foldName key ≠ "status" := h (key, v) (List.mem_cons_self _ _)
    have hrest : ∀ kv ∈ rest, foldName kv.1 ≠ "status" :=
      fun kv hkv => h kv (List.mem_cons_of_mem _ hkv)
    cases hl : lookupField jobTags key with
    | none =>
      simp only [decodeObject, hl]
      exact ih j saved hrest
    | some f =>
      have hf : f ≠ JobField.status := by
        intro hf
        subst hf
        exact hkey (lookupField_jobTags_status key hl)
      cases hs : j.store f v with
      | stored j1 =>
        simp only [decodeObject, hl, hs]
        rw [ih j1 saved hrest]
        exact Job.store_status j j1 f v hf hs
      | mismatch err =>
        simp only [decodeObject, hl, hs]
        exact ih j _ hrest
      | abort j1 err =>
        simp only [decodeObject, hl, hs]
        exact Job.store_abort_status j j1 f v err hf hs

/-- C12, as stated, fails: `UnmarshalBinary` on a completed Job, given a
record whose status is pending, leaves the Job pending. -/
theorem terminal_status_counterexample :
    completedJob.Status = JobStatusCompleted ∧
    (completedJob.UnmarshalBinary [("status", JSONValue.string JobStatusPending)]).1.Status =
      JobStatusPending ∧
    (completedJob.UnmarshalBinary [("status", JSONValue.string JobStatusPending)]).1.Status ≠
      completedJob.Status := by
  decide

/-- C12, amended: `UnmarshalBinary` leaves the Status of a Job, terminal or
not, as it is when the record has no member whose name is `status` up to
letter case; on a record that is one `status` member with a string it sets
Status to that string, whatever the Status was. -/
theorem UnmarshalBinary_status (j : Job) (data : List (String × JSONValue)) (s : String)
    (h : ∀ kv ∈ data, foldName kv.1 ≠ "status") :
    (j.UnmarshalBinary data).1.Status = j.Status ∧
    (j.UnmarshalBinary [("status", JSONValue.string s)]).1.Status = s := by
  refine ⟨decodeObject_status data j none h, ?_⟩
  have hl : lookupField jobTags "status" = some JobField.status := by decide
  simp [Job.UnmarshalBinary, decodeObject, hl, Job.store, storeString, decodeString]

/-- C12 amended, at work: a record that only carries an error text leaves a
completed Job completed. -/
theorem UnmarshalBinary_status_witness :
    (∀ kv ∈ [("error", JSONValue.string "late")], foldName kv.1 ≠ "status") ∧
    (completedJob.UnmarshalBinary [("error", JSONValue.string "late")]).1.Status =
      JobStatusCompleted :=
  ⟨by decide,
   (UnmarshalBinary_status completedJob [("error", JSONValue.string "late")] ""
     (by decide)).1⟩

/-! ## MarshalBinary followed by UnmarshalBinary -/

end Common
